import Mathlib

/-!
Verification development for the fiber/VM core of the vrsjmp repository.

The development contains four shallow embeddings:

* namespace `V1` — the stack-machine fiber of `src/lemma/src/fiber.rs`
  together with the error enum of `src/lemma/src/error.rs`;
* namespace `V2` — the rewritten fiber of `src/lemma/src/v2/fiber.rs`;
* namespace `Lyric` — the yield/resume fiber described by the specification
  (its implementation is exercised by `src/lyric/tests/embedding.rs` but the
  implementation file itself is not part of the source snapshot), together
  with the `peval` builtin of `src/lemma/src/builtin.rs`;
* namespace `Types` — the `Form`/`Val` conversions of `src/lemma/src/types.rs`.

Rust `Rc<RefCell<Env>>` sharing is embedded as a heap of environment frames
indexed by `Nat`; a lambda stores the index of its captured frame.  Machine
integers (`i32`) are embedded as `Int` (the executions proved below stay far
away from overflow).  Rust panics (`todo!`, `expect`) are embedded as a
distinguished `panicked` outcome.  All interpreters are fuel-indexed
structural recursions, so concrete runs reduce by `rfl`.
-/

/-- Identifier for symbols.  `SymbolId` in `src/lemma/src/types.rs` is a
newtype over `String` whose equality and hashing are those of the underlying
string (spec §3.3), so it is embedded as `String` directly. -/
abbrev SymbolId := String

/-- Identifier for keywords, a newtype over `String` like `SymbolId`. -/
abbrev KeywordId := String

/-- Environment frame: a mapping from symbols to values plus an optional
parent frame, as in spec §3.4.  The value type is generic because the `V1`
machine stores `Val` while the `V2` machine stores `Form`. -/
structure EnvFrameG (V : Type) where
  bindings : List (SymbolId × V)
  parent : Option Nat
deriving Repr

/-- Insert-or-replace on an association list, matching `HashMap::insert`. -/
def bindingsInsert {V : Type} : List (SymbolId × V) → SymbolId → V → List (SymbolId × V)
  | [], s, v => [(s, v)]
  | (s0, v0) :: rest, s, v =>
    if s0 = s then (s0, v) :: rest else (s0, v0) :: bindingsInsert rest s v

/-- Lookup on an association list, matching `HashMap::get`. -/
def bindingsGet {V : Type} : List (SymbolId × V) → SymbolId → Option V
  | [], _ => none
  | (s0, v0) :: rest, s => if s0 = s then some v0 else bindingsGet rest s

/-- Modelled from the spec: `define(sym, val)` of §3.4 (the `Env` source file
is not part of the snapshot; only its use sites in the fibers are).  Inserts
unconditionally into the frame `id` of the heap. -/
def envDefine {V : Type} (h : List (EnvFrameG V)) (id : Nat) (s : SymbolId) (v : V) :
    List (EnvFrameG V) :=
  h.mapIdx fun i fr => if i = id then ⟨bindingsInsert fr.bindings s v, fr.parent⟩ else fr

/-- Modelled from the spec: `get(sym)` of §3.4, the nearest-enclosing lookup
walking the parent chain.  The fuel bounds the chain length; every chain
built by the machines below is strictly decreasing in frame index, so a fuel
of `h.length` suffices. -/
def envGetAux {V : Type} (h : List (EnvFrameG V)) : Nat → Nat → SymbolId → Option V
  | 0, _, _ => none
  | fuel + 1, id, s =>
    match h[id]? with
    | none => none
    | some fr =>
      match bindingsGet fr.bindings s with
      | some v => some v
      | none =>
        match fr.parent with
        | none => none
        | some p => envGetAux h fuel p s

/-- Modelled from the spec: `get` starting from frame `id`. -/
def envGet {V : Type} (h : List (EnvFrameG V)) (id : Nat) (s : SymbolId) : Option V :=
  envGetAux h (h.length + 1) id s

/-- Modelled from the spec: `set(sym, val)` of §3.4 — assign in the nearest
enclosing frame that defines `sym`; `none` when no frame defines it (the
caller turns this into `UndefinedSymbol`). -/
def envSetAux {V : Type} (h : List (EnvFrameG V)) : Nat → Nat → SymbolId → V →
    Option (List (EnvFrameG V))
  | 0, _, _, _ => none
  | fuel + 1, id, s, v =>
    match h[id]? with
    | none => none
    | some fr =>
      match bindingsGet fr.bindings s with
      | some _ => some (envDefine h id s v)
      | none =>
        match fr.parent with
        | none => none
        | some p => envSetAux h fuel p s v

/-- Modelled from the spec: `set` starting from frame `id`. -/
def envSet {V : Type} (h : List (EnvFrameG V)) (id : Nat) (s : SymbolId) (v : V) :
    Option (List (EnvFrameG V)) :=
  envSetAux h (h.length + 1) id s v

namespace V1

/-- Instruction set of `src/lemma/src/fiber.rs` (the `Inst` enum used by that
file), parameterized by the value type to tie the recursive knot of
`Val`/`Inst`. -/
inductive InstG (V : Type) where
  | pushConst (v : V)
  | defSym (s : SymbolId)
  | setSym (s : SymbolId)
  | getSym (s : SymbolId)
  | makeFunc
  | callFunc (nargs : Nat)
  | popTop
  | jumpFwd (offset : Nat)
  | popJumpFwdIfTrue (offset : Nat)

/-- Error enum.  The variants are those of `src/lemma/src/error.rs` plus
`UnexpectedStack` and `NoMoreBytecode`, which `src/lemma/src/fiber.rs`
constructs (the two files are snapshots of slightly different revisions of
the same crate). -/
inductive ErrorG (V : Type) where
  | failedToLex (msg : String)
  | failedToParse (msg : String)
  | emptyExpression
  | unexpectedOperator (msg : String)
  | undefinedSymbol (s : SymbolId)
  | invalidArgumentsToFunctionCall
  | invalidOperation (v : V)
  | unexpectedStack (msg : String)
  | noMoreBytecode

/-- Identifiers for native functions bound into the machine; the only one in
the snapshot reachable from this fiber is `+` (`plus_fn` in
`src/lemma/src/builtin.rs`). -/
inductive NativeId where
  | plus

/-- Runtime values manipulated by the `fiber.rs` machine: the variants of
`Val` in `src/lemma/src/types.rs` that this revision of the fiber
manipulates.  A lambda's captured `Rc<RefCell<Env>>` is embedded as the heap
index `envId` of the captured frame. -/
inductive Val where
  | nil
  | bool (b : Bool)
  | int (i : Int)
  | str (s : String)
  | sym (s : SymbolId)
  | kw (k : KeywordId)
  | list (l : List Val)
  | lambda (params : List SymbolId) (code : List (InstG Val)) (envId : Nat)
  | nativeFn (n : NativeId)
  | bytecode (code : List (InstG Val))
  | errorV (e : ErrorG Val)

abbrev Inst := InstG Val

abbrev Error := ErrorG Val

/-- Single call frame of the fiber (`CallFrame` in `fiber.rs`): instruction
pointer, bytecode, and the heap index of its environment. -/
structure Frame where
  ip : Nat
  code : List Inst
  envId : Nat

/-- Fiber state (`Fiber` in `fiber.rs`): call frames (top of the call stack
first), operand stack (top first), the environment heap, and the index of
the global environment. -/
structure Fiber where
  frames : List Frame
  stack : List Val
  heap : List (EnvFrameG Val)
  globalId : Nat

/-- Construct a fiber from bytecode (`Fiber::from_bytecode`): one root frame
at `ip = 0` over a fresh global environment. -/
def fromBytecode (code : List Inst) : Fiber :=
  ⟨[⟨0, code, 0⟩], [], [⟨[], none⟩], 0⟩

/-- Result of `resume` (`run` in `fiber.rs`): `Done(v)`, an error, a Rust
panic, or fuel exhaustion of the embedding. -/
inductive Outcome where
  | done (v : Val)
  | err (e : Error)
  | panicked (msg : String)
  | outOfFuel

/-- Result of dispatching one instruction: the new frames/stack/heap, an
error (`Err(e)` return in the Rust loop), or a panic. -/
inductive StepRes where
  | next (frames : List Frame) (stack : List Val) (heap : List (EnvFrameG Val))
  | fail (e : Error)
  | crash (msg : String)

/-- Native `+` (`plus_fn` in `src/lemma/src/builtin.rs`): two `Int` arguments
produce their sum, anything else panics with the message of the source. -/
def runNative : NativeId → List Val → Except String Val
  | .plus, [.int a, .int b] => .ok (.int (a + b))
  | .plus, _ => .error "only supports ints"

/-- Pop `n` values off the stack, returning them in pop order together with
the remaining stack; `none` when the stack runs out. -/
def popN {V : Type} : Nat → List V → Option (List V × List V)
  | 0, s => some ([], s)
  | _ + 1, [] => none
  | n + 1, v :: rest =>
    match popN n rest with
    | none => none
    | some (a, r) => some (v :: a, r)

/-- Convert the popped parameter-list value into symbols, mirroring the
`params.into_iter().map(...)` collect in `MakeFunc`. -/
def paramsOf : List Val → Except Error (List SymbolId)
  | [] => .ok []
  | .sym s :: rest =>
    match paramsOf rest with
    | .error e => .error e
    | .ok ss => .ok (s :: ss)
  | _ :: _ => .error (.unexpectedStack "Unexpected parameter list")

/-- Define each of the given bindings in frame `id`, in order, mirroring the
`for (s, arg) in l.params.iter().zip(args)` loop of `CallFunc`. -/
def defineAll {V : Type} (h : List (EnvFrameG V)) (id : Nat) :
    List (SymbolId × V) → List (EnvFrameG V)
  | [] => h
  | (s, v) :: rest => defineAll (envDefine h id s v) id rest

/-- Implicit-return loop: pop completed frames while more than one remains,
mirroring the `while cframes.len() > 1 && top.is_done()` loop. -/
def popDone : List Frame → List Frame
  | [] => []
  | [fr] => [fr]
  | fr :: fr2 :: rest =>
    if fr.ip = fr.code.length then popDone (fr2 :: rest) else fr :: fr2 :: rest

/-- Dispatch of a single instruction of `run` in `src/lemma/src/fiber.rs`.
`top` is the current frame with `ip` already advanced past `inst`, `rest`
the remaining frames.  `PopJumpFwdIfTrue` is `todo!()` in the source and
therefore panics. -/
def stepInst (inst : Inst) (top : Frame) (rest : List Frame) (stack : List Val)
    (heap : List (EnvFrameG Val)) : StepRes :=
  match inst with
  | .pushConst v => .next (top :: rest) (v :: stack) heap
  | .defSym s =>
    match stack with
    | [] => .fail (.unexpectedStack "Expected stack to be nonempty")
    | v :: _ => .next (top :: rest) stack (envDefine heap top.envId s v)
  | .setSym s =>
    match stack with
    | [] => .fail (.unexpectedStack "Expected stack to be nonempty")
    | v :: _ =>
      match envSet heap top.envId s v with
      | none => .fail (.undefinedSymbol s)
      | some h2 => .next (top :: rest) stack h2
  | .getSym s =>
    match envGet heap top.envId s with
    | none => .fail (.undefinedSymbol s)
    | some v => .next (top :: rest) (v :: stack) heap
  | .makeFunc =>
    match stack with
    | .bytecode b :: stack1 =>
      match stack1 with
      | .list p :: stack2 =>
        match paramsOf p with
        | .error e => .fail e
        | .ok params => .next (top :: rest) (.lambda params b top.envId :: stack2) heap
      | _ => .fail (.unexpectedStack "Missing parameter list")
    | _ => .fail (.unexpectedStack "Missing function bytecode")
  | .callFunc n =>
    match popN n stack with
    | none => .fail (.unexpectedStack "Missing expected {nargs} args")
    | some (popped, stack1) =>
      match stack1 with
      | .nativeFn nid :: stack2 =>
        match runNative nid popped.reverse with
        | .error msg => .crash msg
        | .ok v => .next (top :: rest) (v :: stack2) heap
      | .lambda params code envId :: stack2 =>
        let newId := heap.length
        let heap1 := heap ++ [⟨[], some envId⟩]
        let heap2 := defineAll heap1 newId (params.zip popped.reverse)
        .next (⟨0, code, newId⟩ :: top :: rest) stack2 heap2
      | _ => .fail (.unexpectedStack "Missing function object")
  | .popTop =>
    match stack with
    | [] => .fail (.unexpectedStack "Attempting to pop empty stack")
    | _ :: s => .next (top :: rest) s heap
  | .jumpFwd k => .next (⟨top.ip + k, top.code, top.envId⟩ :: rest) stack heap
  | .popJumpFwdIfTrue _ => .crash "not yet implemented"

/-- Execution loop `run` of `src/lemma/src/fiber.rs`: fetch the instruction
at the top frame's `ip` (failing `NoMoreBytecode` past the end), advance
`ip`, dispatch, pop completed frames, and when only the completed root frame
remains pop the result off the operand stack — `UnexpectedStack` when the
stack is empty, and the top value (extra values only produce a log warning in
the source) otherwise. -/
def run : Nat → Fiber → Outcome
  | 0, _ => .outOfFuel
  | fuel + 1, f =>
    match f.frames with
    | [] => .panicked "Fiber has no callframes!"
    | top0 :: rest =>
      match top0.code[top0.ip]? with
      | none => .err .noMoreBytecode
      | some inst =>
        match stepInst inst ⟨top0.ip + 1, top0.code, top0.envId⟩ rest f.stack f.heap with
        | .fail e => .err e
        | .crash msg => .panicked msg
        | .next frames1 stack1 heap1 =>
          match popDone frames1 with
          | [root] =>
            if root.ip = root.code.length then
              match stack1 with
              | [] => .err (.unexpectedStack "Stack should contain result for terminated fiber")
              | v :: _ => .done v
            else run fuel ⟨[root], stack1, heap1, f.globalId⟩
          | frames2 => run fuel ⟨frames2, stack1, heap1, f.globalId⟩

/-- Callable predicate: the two `CallFunc` arms of `fiber.rs` that do not
fall through to the `Missing function object` error. -/
def isCallable : Val → Bool
  | .lambda _ _ _ => true
  | .nativeFn _ => true
  | _ => false

end V1

namespace V2

/-- Instruction set of `src/lemma/src/v2/fiber.rs`, parameterized by the
value type to tie the recursive knot with `Form`. -/
inductive InstG (V : Type) where
  | pushConst (v : V)
  | storeSym (s : SymbolId)
  | loadSym (s : SymbolId)
  | makeFunc
  | callFunc (nargs : Nat)
  | popTop
  | beginScope
  | endScope

/-- Error enum `FiberError` of `src/lemma/src/v2/fiber.rs`.  Note that it has
no `AlreadyCompleted` variant. -/
inductive FiberError where
  | alreadyRunning
  | undefinedSymbol (s : SymbolId)
  | unexpectedStack (msg : String)
deriving DecidableEq

/-- Values of the v2 machine.  This revision stores `Form` values directly;
its `Lambda { params, code }` captures no environment. -/
inductive Form where
  | nil
  | bool (b : Bool)
  | int (i : Int)
  | str (s : String)
  | sym (s : SymbolId)
  | kw (k : KeywordId)
  | list (l : List Form)
  | lambda (params : List SymbolId) (code : List (InstG Form))
  | bytecode (code : List (InstG Form))

abbrev Inst := InstG Form

/-- Fiber status of `src/lemma/src/v2/fiber.rs`. -/
inductive Status where
  | new
  | running
  | yielded
  | completed (r : Except FiberError Form)

/-- Single call frame of the v2 fiber. -/
structure Frame where
  ip : Nat
  code : List Inst
  envId : Nat

/-- The v2 fiber: call frames (top first), operand stack (top first), the
environment heap, and a status. -/
structure Fiber where
  frames : List Frame
  stack : List Form
  heap : List (EnvFrameG Form)
  status : Status

/-- Construct a v2 fiber from bytecode (`Fiber::from_bytecode`): one root
frame over a fresh default environment, status `New`. -/
def fromBytecode (code : List Inst) : Fiber :=
  ⟨[⟨0, code, 0⟩], [], [⟨[], none⟩], .new⟩

/-- Result of the v2 `run` loop: the finished fiber (whose status the loop
set to `Completed`), a Rust panic (`expect`/`todo!`), or fuel exhaustion of
the embedding. -/
inductive RunOut where
  | fin (f : Fiber)
  | panicked (msg : String)
  | outOfFuel

/-- Convert the popped parameter-list value into symbols, mirroring the
collect in the v2 `MakeFunc` arm. -/
def paramsOf : List Form → Except FiberError (List SymbolId)
  | [] => .ok []
  | .sym s :: rest =>
    match paramsOf rest with
    | .error e => .error e
    | .ok ss => .ok (s :: ss)
  | _ :: _ => .error (.unexpectedStack "Unexpected parameter list")

/-- Implicit-return loop of the v2 fiber, identical to the v1 one. -/
def popDone : List Frame → List Frame
  | [] => []
  | [fr] => [fr]
  | fr :: fr2 :: rest =>
    if fr.ip = fr.code.length then popDone (fr2 :: rest) else fr :: fr2 :: rest

/-- Result of dispatching one v2 instruction. -/
inductive StepRes where
  | next (frames : List Frame) (stack : List Form) (heap : List (EnvFrameG Form))
  | fail (e : FiberError)
  | crash (msg : String)

/-- Dispatch of a single instruction of `run` in `src/lemma/src/v2/fiber.rs`.
Two deliberate features of the source are preserved: the `CallFunc` arm
collects the popped arguments through `(0..nargs).map(|_| pop()).rev()`, and
because `rev` on a mapped range only reverses the ignored indices while the
closure pops in call order, the collected vector is in pop order — the
arguments are NOT restored to left-to-right order; and the callee frame's
environment extends the CURRENT frame's environment (`Env::extend(&f.top().env)`,
flagged in the source by a `TODO: should use parent scope!` comment), not a
captured one — v2 lambdas capture no environment at all.  `PopTop`,
`BeginScope` and `EndScope` are `todo!()` and panic. -/
def stepInst (inst : Inst) (top : Frame) (rest : List Frame) (stack : List Form)
    (heap : List (EnvFrameG Form)) : StepRes :=
  match inst with
  | .pushConst v => .next (top :: rest) (v :: stack) heap
  | .storeSym s =>
    match stack with
    | [] => .fail (.unexpectedStack "Expected stack to be nonempty")
    | v :: _ => .next (top :: rest) stack (envDefine heap top.envId s v)
  | .loadSym s =>
    match envGet heap top.envId s with
    | none => .fail (.undefinedSymbol s)
    | some v => .next (top :: rest) (v :: stack) heap
  | .makeFunc =>
    match stack with
    | .bytecode b :: stack1 =>
      match stack1 with
      | .list p :: stack2 =>
        match paramsOf p with
        | .error e => .fail e
        | .ok params => .next (top :: rest) (.lambda params b :: stack2) heap
      | _ => .fail (.unexpectedStack "Missing parameter list")
    | _ => .fail (.unexpectedStack "Missing function bytecode")
  | .callFunc n =>
    match V1.popN n stack with
    | none => .fail (.unexpectedStack "Missing expected {nargs} args")
    | some (args, stack1) =>
      match stack1 with
      | .lambda params code :: stack2 =>
        let newId := heap.length
        let heap1 := heap ++ [⟨[], some top.envId⟩]
        let heap2 := V1.defineAll heap1 newId (params.zip args)
        .next (⟨0, code, newId⟩ :: top :: rest) stack2 heap2
      | _ => .fail (.unexpectedStack "Missing function object")
  | .popTop => .crash "not yet implemented"
  | .beginScope => .crash "not yet implemented"
  | .endScope => .crash "not yet implemented"

/-- Execution loop `run` of `src/lemma/src/v2/fiber.rs`: fetch (`expect`
panics past the end of the bytecode), advance `ip`, dispatch (errors break
out with `Status::Completed(Err(e))`), pop completed frames, and when the
root frame is exhausted pop the result (`expect` panics on an empty stack)
and complete with `Ok(res)`. -/
def run : Nat → Fiber → RunOut
  | 0, _ => .outOfFuel
  | fuel + 1, f =>
    match f.frames with
    | [] => .panicked "Fiber has no callframes!"
    | top0 :: rest =>
      match top0.code[top0.ip]? with
      | none => .panicked "Callstack executing outside bytecode length"
      | some inst =>
        match stepInst inst ⟨top0.ip + 1, top0.code, top0.envId⟩ rest f.stack f.heap with
        | .fail e => .fin ⟨top0 :: rest, f.stack, f.heap, .completed (.error e)⟩
        | .crash msg => .panicked msg
        | .next frames1 stack1 heap1 =>
          match popDone frames1 with
          | [root] =>
            if root.ip = root.code.length then
              match stack1 with
              | [] => .panicked "Stack should contain result"
              | v :: stack2 => .fin ⟨[root], stack2, heap1, .completed (.ok v)⟩
            else run fuel ⟨[root], stack1, heap1, .running⟩
          | frames2 => run fuel ⟨frames2, stack1, heap1, .running⟩

/-- Result of `start` in `src/lemma/src/v2/fiber.rs`: either the immediate
`AlreadyRunning` rejection, or the outcome of running the fiber. -/
inductive StartOut where
  | fail (e : FiberError)
  | ran (r : RunOut)

/-- Entry point `start` of `src/lemma/src/v2/fiber.rs`: a fiber whose status
is anything other than `New` — including `Completed` — is rejected with
`AlreadyRunning`; otherwise the status becomes `Running` and the loop runs. -/
def start (fuel : Nat) (f : Fiber) : StartOut :=
  match f.status with
  | .new => .ran (run fuel ⟨f.frames, f.stack, f.heap, .running⟩)
  | _ => .fail .alreadyRunning

end V2

/-- Error kinds of the unified error enum described in spec §7 (the lyric
crate's `error.rs` is not part of the snapshot), plus the `AlreadyCompleted`
and `AlreadyRunning` resume failures of §4.6.  Parameterized by the value
type carried by `InvalidOperation(v)`. -/
inductive SpecErrorG (V : Type) where
  | failedToLex (msg : String)
  | failedToParse (msg : String)
  | emptyExpression
  | invalidExpression (msg : String)
  | unexpectedOperator (msg : String)
  | invalidFormToExpr (msg : String)
  | undefinedSymbol (s : SymbolId)
  | unexpectedArguments (msg : String)
  | invalidArgumentsToFunctionCall
  | invalidOperation (v : V)
  | unexpectedStack (msg : String)
  | noMoreBytecode
  | alreadyCompleted
  | alreadyRunning

namespace Lyric

/-- Modelled from the spec: the instruction set of §3.5 (the lyric fiber
implementation is not under `src/`, only its tests are).  Parameterized by
the value type to tie the recursive knot with `Val`. -/
inductive InstG (V : Type) where
  | pushConst (v : V)
  | defSym (s : SymbolId)
  | setSym (s : SymbolId)
  | getSym (s : SymbolId)
  | makeFunc
  | callFunc (nargs : Nat)
  | popTop
  | jumpFwd (offset : Nat)
  | popJumpFwdIfTrue (offset : Nat)
  | yieldInst

/-- Native functions reachable from the claims under verification: `+`
(`plus_fn`) and `peval` (`peval_fn`), both from `src/lemma/src/builtin.rs`. -/
inductive NativeId where
  | plus
  | peval

/-- Modelled from the spec: the runtime value union of §3.1 (the lyric
`types.rs` revision with per-fiber locals is not under `src/`).  A lambda's
captured environment is the heap index of the captured frame; `ext` carries
an opaque host payload, embedded as a bare `Nat` tag since no claim below
inspects one. -/
inductive Val where
  | nil
  | bool (b : Bool)
  | int (i : Int)
  | str (s : String)
  | sym (s : SymbolId)
  | kw (k : KeywordId)
  | list (l : List Val)
  | lambda (params : List SymbolId) (code : List (InstG Val)) (envId : Nat)
  | nativeFn (n : NativeId)
  | bytecode (code : List (InstG Val))
  | errorV (e : SpecErrorG Val)
  | ext (tag : Nat)

abbrev Inst := InstG Val

abbrev Error := SpecErrorG Val

/-- Modelled from the spec: truthiness of §3.5 — `Nil` and `Bool(false)` are
false, everything else is true. -/
def truthy : Val → Bool
  | .nil => false
  | .bool false => false
  | _ => true

/-- Modelled from the spec: fiber status of §3.6. -/
inductive Status where
  | new
  | running
  | yielded
  | doneSt (r : Except Error Val)

/-- Call frame of §3.7: instruction pointer, bytecode, environment index. -/
structure Frame where
  ip : Nat
  code : List Inst
  envId : Nat

/-- Modelled from the spec: the fiber of §3.6 (frames top-first, operand
stack top-first, environment heap, global environment index, status). -/
structure Fiber where
  frames : List Frame
  stack : List Val
  heap : List (EnvFrameG Val)
  globalId : Nat
  status : Status

/-- FiberState of §6.1: what a successful resume hands back to the host. -/
inductive FiberState where
  | doneS (v : Val)
  | yieldS (v : Val)

/-- NativeFnVal of §6.2: a native either returns a value or yields one. -/
inductive NativeFnVal where
  | ret (v : Val)
  | yieldV (v : Val)

/-- Compilation jobs: a single expression, an argument sequence of a call,
or a function/`begin` body (implicit `begin`).  Bundling the three shapes
into one sum makes the compiler a single structural recursion on fuel. -/
inductive CompJob where
  | one (v : Val)
  | seq (vs : List Val)
  | body (vs : List Val)

/-- Modelled from the spec: the compiler of §4.2 (the lyric compiler source
is not under `src/`).  Special forms `quote`, `def`, `set`, `begin`, `if`,
`lambda`, `defn` and `yield` are recognized by their head symbol; any other
list compiles as a call with strictly left-to-right argument evaluation;
atoms compile to `GetSym`/`PushConst`.  The `loop` form is not modelled (its
code generation is left open by §4.2 and no claim exercises it).  Fuel
exhaustion reports an `InvalidExpression` never reached by the concrete
programs below. -/
def compAux : Nat → CompJob → Except Error (List Inst)
  | 0, _ => .error (.invalidExpression "compiler out of fuel")
  | fuel + 1, job =>
    match job with
    | .seq [] => .ok []
    | .seq (v :: rest) =>
      match compAux fuel (.one v) with
      | .error e => .error e
      | .ok c =>
        match compAux fuel (.seq rest) with
        | .error e => .error e
        | .ok cs => .ok (c ++ cs)
    | .body [] => .ok [.pushConst .nil]
    | .body [v] => compAux fuel (.one v)
    | .body (v :: rest) =>
      match compAux fuel (.one v) with
      | .error e => .error e
      | .ok c =>
        match compAux fuel (.body rest) with
        | .error e => .error e
        | .ok cs => .ok (c ++ [.popTop] ++ cs)
    | .one (.sym s) => .ok [.getSym s]
    | .one .nil => .ok [.pushConst .nil]
    | .one (.bool b) => .ok [.pushConst (.bool b)]
    | .one (.int i) => .ok [.pushConst (.int i)]
    | .one (.str s) => .ok [.pushConst (.str s)]
    | .one (.kw k) => .ok [.pushConst (.kw k)]
    | .one (.list []) => .error .emptyExpression
    | .one (.list (.sym "quote" :: args)) =>
      match args with
      | [x] => .ok [.pushConst x]
      | _ => .error (.invalidExpression "quote expects one form")
    | .one (.list (.sym "def" :: args)) =>
      match args with
      | [.sym s, e] =>
        match compAux fuel (.one e) with
        | .error err => .error err
        | .ok c => .ok (c ++ [.defSym s])
      | _ => .error (.invalidExpression "def expects a symbol and an expression")
    | .one (.list (.sym "set" :: args)) =>
      match args with
      | [.sym s, e] =>
        match compAux fuel (.one e) with
        | .error err => .error err
        | .ok c => .ok (c ++ [.setSym s])
      | _ => .error (.invalidExpression "set expects a symbol and an expression")
    | .one (.list (.sym "begin" :: args)) => compAux fuel (.body args)
    | .one (.list (.sym "if" :: args)) =>
      match args with
      | [c, t] => compAux fuel (.one (.list [.sym "if", c, t, .nil]))
      | [c, t, e] =>
        match compAux fuel (.one c) with
        | .error err => .error err
        | .ok cc =>
          match compAux fuel (.one t) with
          | .error err => .error err
          | .ok ct =>
            match compAux fuel (.one e) with
            | .error err => .error err
            | .ok ce =>
              .ok (cc ++ [.popJumpFwdIfTrue (ce.length + 1)] ++ ce ++ [.jumpFwd ct.length] ++ ct)
      | _ => .error (.invalidExpression "if expects two or three forms")
    | .one (.list (.sym "lambda" :: args)) =>
      match args with
      | .list ps :: bodyForms =>
        match compAux fuel (.body bodyForms) with
        | .error err => .error err
        | .ok inner =>
          .ok [.pushConst (.list ps), .pushConst (.bytecode inner), .makeFunc]
      | _ => .error (.invalidExpression "lambda expects a parameter list")
    | .one (.list (.sym "defn" :: args)) =>
      match args with
      | .sym name :: .list ps :: bodyForms =>
        compAux fuel (.one (.list [.sym "def", .sym name,
          .list (.sym "lambda" :: .list ps :: bodyForms)]))
      | _ => .error (.invalidExpression "defn expects a name and a parameter list")
    | .one (.list (.sym "yield" :: args)) =>
      match args with
      | [e] =>
        match compAux fuel (.one e) with
        | .error err => .error err
        | .ok c => .ok (c ++ [.yieldInst])
      | _ => .error (.invalidExpression "yield expects one expression")
    | .one (.list (head :: args)) =>
      match compAux fuel (.one head) with
      | .error err => .error err
      | .ok ch =>
        match compAux fuel (.seq args) with
        | .error err => .error err
        | .ok ca => .ok (ch ++ ca ++ [.callFunc args.length])
    | .one (.lambda _ _ _) => .error (.invalidExpression "cannot compile value")
    | .one (.nativeFn _) => .error (.invalidExpression "cannot compile value")
    | .one (.bytecode _) => .error (.invalidExpression "cannot compile value")
    | .one (.errorV _) => .error (.invalidExpression "cannot compile value")
    | .one (.ext _) => .error (.invalidExpression "cannot compile value")

/-- Modelled from the spec: compile one expression (`compile` in the data
flow of §2). -/
def compileV (fuel : Nat) (v : Val) : Except Error (List Inst) :=
  compAux fuel (.one v)

end Lyric

namespace Lyric

/-- Modelled from the spec: conversion of a popped parameter-list value into
symbols inside `MakeFunc`, as in the v1 fiber. -/
def paramsOf : List Val → Except Error (List SymbolId)
  | [] => .ok []
  | .sym s :: rest =>
    match paramsOf rest with
    | .error e => .error e
    | .ok ss => .ok (s :: ss)
  | _ :: _ => .error (.unexpectedStack "Unexpected parameter list")

/-- Outcome of one run of the fiber loop: normal completion, suspension at a
yield point, a Rust panic, or fuel exhaustion of the embedding.  Completion
and suspension carry the fiber so that environment mutations persist across
resumes and into `peval` callers. -/
inductive RunRes where
  | completed (r : Except Error Val) (f : Fiber)
  | yielded (v : Val) (f : Fiber)
  | panicked (msg : String)
  | fuelOut

/-- Result of dispatching one instruction of the spec-modelled loop. -/
inductive StepRes where
  | next (frames : List Frame) (stack : List Val) (heap : List (EnvFrameG Val))
  | suspend (v : Val) (frames : List Frame) (stack : List Val) (heap : List (EnvFrameG Val))
  | fail (e : Error)
  | crash (msg : String)
  | fuelOut

/-- Implicit-return loop of spec §4.4 step 3, identical to the v1 one. -/
def popDone : List Frame → List Frame
  | [] => []
  | [fr] => [fr]
  | fr :: fr2 :: rest =>
    if fr.ip = fr.code.length then popDone (fr2 :: rest) else fr :: fr2 :: rest

/-- Result of the `peval` native: what it hands back to the calling fiber
together with the heap as mutated by the nested fiber. -/
inductive PevalRes where
  | out (r : NativeFnVal) (heap : List (EnvFrameG Val))
  | failP (e : Error)
  | crashP (msg : String)
  | fuelP

/-- Body of `peval_fn` in `src/lemma/src/builtin.rs`, over the spec-modelled
fiber and abstracted over the compiler and the nested runner: exactly one
argument is required (otherwise `Err(InvalidExpression)`, which terminates
the calling fiber); the argument is compiled (`Fiber::from_val`) into a
nested fiber sharing the caller's environment (`with_env(f.env())`); a
nested `Done(v)` returns `v`, a nested `Yield(v)` propagates as the native's
own yield, and a nested error is returned as the first-class value
`Val::Error(e)`. -/
def pevalBody (compileF : Val → Except Error (List Inst))
    (runner : Fiber → RunRes) (envId : Nat) (heap : List (EnvFrameG Val))
    (globalId : Nat) (args : List Val) : PevalRes :=
  match args with
  | [v] =>
    match compileF v with
    | .error e => .failP e
    | .ok code =>
      match runner ⟨[⟨0, code, envId⟩], [], heap, globalId, .running⟩ with
      | .completed (.ok v2) nf => .out (.ret v2) nf.heap
      | .completed (.error e) nf => .out (.ret (.errorV e)) nf.heap
      | .yielded v2 nf => .out (.yieldV v2) nf.heap
      | .panicked msg => .crashP msg
      | .fuelOut => .fuelP
  | _ => .failP (.invalidExpression "peval expects one argument")

/-- Modelled from the spec: dispatch of a single instruction per §3.5, §4.4
and §4.5 (the lyric fiber implementation is not under `src/`).  `top` has
its `ip` already advanced.  Calls re-order popped arguments to left-to-right
order; a `Lambda` callee with mismatched arity fails
`InvalidArgumentsToFunctionCall`; a non-callable callee fails
`InvalidOperation(v)`.  The native `+` follows `plus_fn` (two `Int`s or
panic), and `peval` follows `pevalBody` driven by the fuel-limited runner. -/
def stepInst (compileF : Val → Except Error (List Inst)) (runner : Fiber → RunRes)
    (inst : Inst) (top : Frame) (rest : List Frame) (stack : List Val)
    (heap : List (EnvFrameG Val)) (globalId : Nat) : StepRes :=
  match inst with
  | .pushConst v => .next (top :: rest) (v :: stack) heap
  | .defSym s =>
    match stack with
    | [] => .fail (.unexpectedStack "Expected stack to be nonempty")
    | v :: _ => .next (top :: rest) stack (envDefine heap top.envId s v)
  | .setSym s =>
    match stack with
    | [] => .fail (.unexpectedStack "Expected stack to be nonempty")
    | v :: _ =>
      match envSet heap top.envId s v with
      | none => .fail (.undefinedSymbol s)
      | some h2 => .next (top :: rest) stack h2
  | .getSym s =>
    match envGet heap top.envId s with
    | none => .fail (.undefinedSymbol s)
    | some v => .next (top :: rest) (v :: stack) heap
  | .makeFunc =>
    match stack with
    | .bytecode b :: stack1 =>
      match stack1 with
      | .list p :: stack2 =>
        match paramsOf p with
        | .error e => .fail e
        | .ok params => .next (top :: rest) (.lambda params b top.envId :: stack2) heap
      | _ => .fail (.unexpectedStack "Missing parameter list")
    | _ => .fail (.unexpectedStack "Missing function bytecode")
  | .callFunc n =>
    match V1.popN n stack with
    | none => .fail (.unexpectedStack "Missing expected {nargs} args")
    | some (popped, stack1) =>
      match stack1 with
      | .nativeFn .plus :: stack2 =>
        match popped.reverse with
        | [.int a, .int b] => .next (top :: rest) (.int (a + b) :: stack2) heap
        | _ => .crash "only supports ints"
      | .nativeFn .peval :: stack2 =>
        match pevalBody compileF runner top.envId heap globalId popped.reverse with
        | .out (.ret v) h2 => .next (top :: rest) (v :: stack2) h2
        | .out (.yieldV v) h2 => .suspend v (top :: rest) stack2 h2
        | .failP e => .fail e
        | .crashP msg => .crash msg
        | .fuelP => .fuelOut
      | .lambda params code envId :: stack2 =>
        if params.length = popped.length then
          let newId := heap.length
          let heap1 := heap ++ [⟨[], some envId⟩]
          let heap2 := V1.defineAll heap1 newId (params.zip popped.reverse)
          .next (⟨0, code, newId⟩ :: top :: rest) stack2 heap2
        else .fail .invalidArgumentsToFunctionCall
      | callee :: _ => .fail (.invalidOperation callee)
      | [] => .fail (.unexpectedStack "Missing function object")
  | .popTop =>
    match stack with
    | [] => .fail (.unexpectedStack "Attempting to pop empty stack")
    | _ :: s => .next (top :: rest) s heap
  | .jumpFwd k => .next (⟨top.ip + k, top.code, top.envId⟩ :: rest) stack heap
  | .popJumpFwdIfTrue k =>
    match stack with
    | [] => .fail (.unexpectedStack "Expected stack to be nonempty")
    | v :: s =>
      if truthy v then .next (⟨top.ip + k, top.code, top.envId⟩ :: rest) s heap
      else .next (top :: rest) s heap
  | .yieldInst =>
    match stack with
    | [] => .fail (.unexpectedStack "Expected stack to be nonempty")
    | v :: s => .suspend v (top :: rest) s heap

/-- Modelled from the spec: the execution loop of §4.4 (the lyric fiber
implementation is not under `src/`): fetch (past-the-end manifests as
`NoMoreBytecode`), advance `ip`, dispatch, pop completed frames, and when
only the exhausted root frame remains pop the final value (an empty operand
stack is the `UnexpectedStack` invariant violation; extra values only warn).
A suspension leaves the state intact with status `Yielded`; an error
completes the fiber with `Done(Err(e))`. -/
def runF : Nat → Fiber → RunRes
  | 0, _ => .fuelOut
  | fuel + 1, f =>
    match f.frames with
    | [] => .panicked "Fiber has no callframes!"
    | top0 :: rest =>
      match top0.code[top0.ip]? with
      | none => .completed (.error .noMoreBytecode)
          ⟨f.frames, f.stack, f.heap, f.globalId, .doneSt (.error .noMoreBytecode)⟩
      | some inst =>
        match stepInst (compileV fuel) (runF fuel) inst ⟨top0.ip + 1, top0.code, top0.envId⟩
            rest f.stack f.heap f.globalId with
        | .fail e => .completed (.error e)
            ⟨f.frames, f.stack, f.heap, f.globalId, .doneSt (.error e)⟩
        | .crash msg => .panicked msg
        | .fuelOut => .fuelOut
        | .suspend v frames1 stack1 heap1 =>
          .yielded v ⟨frames1, stack1, heap1, f.globalId, .yielded⟩
        | .next frames1 stack1 heap1 =>
          match popDone frames1 with
          | [root] =>
            if root.ip = root.code.length then
              match stack1 with
              | [] => .completed
                  (.error (.unexpectedStack "Stack should contain result for terminated fiber"))
                  ⟨[root], stack1, heap1, f.globalId,
                    .doneSt (.error (.unexpectedStack "Stack should contain result for terminated fiber"))⟩
              | v :: stack2 => .completed (.ok v)
                  ⟨[root], stack2, heap1, f.globalId, .doneSt (.ok v)⟩
            else runF fuel ⟨[root], stack1, heap1, f.globalId, .running⟩
          | frames2 => runF fuel ⟨frames2, stack1, heap1, f.globalId, .running⟩

end Lyric

namespace Lyric

/-- Result of `resume`/`resume_from_yield` as seen by the host: a
`FiberState` together with the fiber, an error, a panic, or fuel
exhaustion of the embedding. -/
inductive ResumeOut where
  | ok (st : FiberState) (f : Fiber)
  | err (e : Error)
  | panicked (msg : String)
  | fuelOut

/-- Translate a finished run into the host-facing result: `Done(Ok v)` is the
state `Done(v)`, a suspension is `Yield(v)`, and `Done(Err e)` surfaces as
the error of the resume call. -/
def finishRun : RunRes → ResumeOut
  | .completed (.ok v) f => .ok (.doneS v) f
  | .completed (.error e) _ => .err e
  | .yielded v f => .ok (.yieldS v) f
  | .panicked msg => .panicked msg
  | .fuelOut => .fuelOut

/-- Modelled from the spec: `resume_from_yield(r)` of §4.6 (the lyric fiber
implementation is not under `src/`).  A `Done` fiber fails
`AlreadyCompleted`, a `Running` fiber fails `AlreadyRunning`; on a `Yielded`
fiber `r` fills the resume slot (pushed where the suspension left its hole)
and execution proceeds; on a fresh fiber there is no resume slot, so `r` is
discarded and execution simply starts. -/
def resumeFromYield (fuel : Nat) (r : Val) (f : Fiber) : ResumeOut :=
  match f.status with
  | .doneSt _ => .err .alreadyCompleted
  | .running => .err .alreadyRunning
  | .new => finishRun (runF fuel ⟨f.frames, f.stack, f.heap, f.globalId, .running⟩)
  | .yielded => finishRun (runF fuel ⟨f.frames, r :: f.stack, f.heap, f.globalId, .running⟩)

/-- Modelled from the spec: `resume()` of §4.6 (the lyric fiber
implementation is not under `src/`): the same status guards, and on a fresh
fiber execution starts from the beginning — equivalently to
`resume_from_yield(Nil)`.  On a `Yielded` fiber it behaves as
`resume_from_yield(Nil)`. -/
def resume (fuel : Nat) (f : Fiber) : ResumeOut :=
  match f.status with
  | .doneSt _ => .err .alreadyCompleted
  | .running => .err .alreadyRunning
  | .new => finishRun (runF fuel ⟨f.frames, f.stack, f.heap, f.globalId, .running⟩)
  | .yielded => resumeFromYield fuel .nil f

/-- Host-visible item of a resume trace (the fiber itself dropped). -/
inductive TraceItem where
  | done (v : Val)
  | yield (v : Val)
  | err (e : Error)
  | panicked (msg : String)
  | fuelOut

/-- Drop the fiber component of a resume result. -/
def stateItem : FiberState → TraceItem
  | .doneS v => .done v
  | .yieldS v => .yield v

/-- Feed the fiber the given resume values one by one via
`resume_from_yield`, collecting the host-visible results; stops after the
first error, panic, or fuel exhaustion. -/
def traceGo (fuel : Nat) : List Val → Fiber → List TraceItem
  | [], _ => []
  | r :: rest, f =>
    match resumeFromYield fuel r f with
    | .ok st f1 => stateItem st :: traceGo fuel rest f1
    | .err e => [.err e]
    | .panicked msg => [.panicked msg]
    | .fuelOut => [.fuelOut]

/-- Resume a fresh fiber once via `resume()`, then feed it the given values
via `resume_from_yield`, collecting the host-visible results. -/
def traceResumes (fuel : Nat) (f : Fiber) (rs : List Val) : List TraceItem :=
  match resume fuel f with
  | .ok st f1 => stateItem st :: traceGo fuel rs f1
  | .err e => [.err e]
  | .panicked msg => [.panicked msg]
  | .fuelOut => [.fuelOut]

/-- Global environment of a freshly constructed fiber with the builtins of
`src/lemma/src/builtin.rs` bound (`Fiber::bind` on `plus_fn` and
`peval_fn`). -/
def initialHeap : List (EnvFrameG Val) :=
  [⟨[("+", .nativeFn .plus), ("peval", .nativeFn .peval)], none⟩]

/-- Modelled from the spec: `Fiber::from_expr`/`from_val` of §6.1 for an
already parsed value — compile it and construct a `New` fiber over the
builtin-carrying global environment. -/
def fiberFromVal (fuel : Nat) (v : Val) : Except Error Fiber :=
  match compileV fuel v with
  | .error e => .error e
  | .ok code => .ok ⟨[⟨0, code, 0⟩], [], initialHeap, 0, .new⟩

/-- Construct a fresh fiber directly from bytecode over an empty global
environment (`Fiber::from_bytecode`). -/
def fromBytecode (code : List Inst) : Fiber :=
  ⟨[⟨0, code, 0⟩], [], [⟨[], none⟩], 0, .new⟩

/-- Compile a value and trace the resulting fiber through an initial
`resume` followed by `resume_from_yield` of each given value. -/
def traceFromVal (fuel : Nat) (v : Val) (rs : List Val) : Except Error (List TraceItem) :=
  match fiberFromVal fuel v with
  | .error e => .error e
  | .ok f => .ok (traceResumes fuel f rs)

/-- Standalone embedding of `peval_fn` from `src/lemma/src/builtin.rs`: the
native function itself, taking the caller's environment view (`f.env()`),
the heap, and the argument slice, driven by the fuel-limited compiler and
runner.  This is the same body the interpreter dispatches through
`pevalBody`. -/
def pevalNative (fuel : Nat) (envId : Nat) (heap : List (EnvFrameG Val))
    (globalId : Nat) (args : List Val) : PevalRes :=
  pevalBody (compileV fuel) (runF fuel) envId heap globalId args

end Lyric

namespace Types

/-- Parse-layer value `Form` of `src/lemma/src/types.rs`: the serializable
subset of `Val` (no lambdas, native functions, bytecode, errors or externs). -/
inductive Form where
  | nil
  | bool (b : Bool)
  | int (i : Int)
  | str (s : String)
  | sym (s : SymbolId)
  | kw (k : KeywordId)
  | list (l : List Form)

/-- Runtime value `Val<T>` of `src/lemma/src/types.rs`.  `T` is the host
extern payload; the other parameters stand for payloads the conversions
never inspect: `F` for the native-function pointer, `I` for the instruction
type `crate::codegen::Inst` (whose source is not in the snapshot), and `R`
for the `Rc<RefCell<Env>>` captured by a lambda. -/
inductive Val (T F I R : Type) where
  | nil
  | bool (b : Bool)
  | int (i : Int)
  | str (s : String)
  | sym (s : SymbolId)
  | kw (k : KeywordId)
  | list (l : List (Val T F I R))
  | lambda (params : List SymbolId) (code : List I) (env : R)
  | nativeFn (symbol : SymbolId) (func : F)
  | bytecode (code : List I)
  | errorV (e : SpecErrorG (Val T F I R))
  | ext (t : T)

mutual

/-- Conversion `impl From<Form> for Val` of `src/lemma/src/types.rs`: a
total, structure-preserving injection. -/
def fromForm {T F I R : Type} : Form → Val T F I R
  | .nil => .nil
  | .bool b => .bool b
  | .int i => .int i
  | .str s => .str s
  | .sym s => .sym s
  | .kw k => .kw k
  | .list l => .list (fromFormList l)

/-- Elementwise `From<Form>` conversion of a list, mirroring the
`l.into_iter().map(|e| e.into()).collect()` in the `List` arm. -/
def fromFormList {T F I R : Type} : List Form → List (Val T F I R)
  | [] => []
  | f :: rest => fromForm f :: fromFormList rest

end

mutual

/-- Conversion `impl TryFrom<Val> for Form` of `src/lemma/src/types.rs`:
atoms and lists convert structurally; `Bytecode`, `Lambda`, `NativeFn`,
`Error` and `Extern` fail with `InvalidFormToExpr` carrying the message of
the source. -/
def tryFromVal {T F I R : Type} :
    Val T F I R → Except (SpecErrorG (Val T F I R)) Form
  | .nil => .ok .nil
  | .bool b => .ok (.bool b)
  | .int i => .ok (.int i)
  | .str s => .ok (.str s)
  | .sym s => .ok (.sym s)
  | .kw k => .ok (.kw k)
  | .list l =>
    match tryFromList l with
    | .error e => .error e
    | .ok fs => .ok (.list fs)
  | .bytecode _ => .error (.invalidFormToExpr "bytecode are not exprs")
  | .lambda _ _ _ => .error (.invalidFormToExpr "lambdas are not exprs")
  | .nativeFn _ _ => .error (.invalidFormToExpr "nativefns are not exprs")
  | .errorV _ => .error (.invalidFormToExpr "errors are not exprs")
  | .ext _ => .error (.invalidFormToExpr "extern values are not exprs")

/-- Elementwise `TryFrom` conversion of a list, mirroring the
`collect::<Result<Vec<_>>>()` in the `List` arm: the first failing element
aborts with its error. -/
def tryFromList {T F I R : Type} :
    List (Val T F I R) → Except (SpecErrorG (Val T F I R)) (List Form)
  | [] => .ok []
  | v :: rest =>
    match tryFromVal v with
    | .error e => .error e
    | .ok f =>
      match tryFromList rest with
      | .error e => .error e
      | .ok fs => .ok (f :: fs)

end

mutual

/-- Serializability predicate read off the spec sentence: the variants on
which `Val → Form` succeeds — everything except `Lambda`, `NativeFn`,
`Bytecode`, `Error` and `Extern`, where a list is serializable exactly when
all of its elements are. -/
def serializable {T F I R : Type} : Val T F I R → Bool
  | .nil => true
  | .bool _ => true
  | .int _ => true
  | .str _ => true
  | .sym _ => true
  | .kw _ => true
  | .list l => serializableList l
  | .lambda _ _ _ => false
  | .nativeFn _ _ => false
  | .bytecode _ => false
  | .errorV _ => false
  | .ext _ => false

/-- Serializability of every element of a list. -/
def serializableList {T F I R : Type} : List (Val T F I R) → Bool
  | [] => true
  | v :: rest => serializable v && serializableList rest

end

end Types

/-- Projection of a v2 `start` outcome onto the completion result, when the
run finished normally. -/
def V2.startStatus : V2.StartOut → Option (Except V2.FiberError V2.Form)
  | .ran (.fin f) =>
    match f.status with
    | .completed r => some r
    | _ => none
  | _ => none

/-- Body bytecode of an outer lambda that defines `x := 5` in its own frame
and returns an inner lambda reading `x`, for the v1 machine (where the inner
`MakeFunc` captures the outer frame's environment). -/
def c1OuterV1 : List V1.Inst :=
  [.pushConst (.int 5), .defSym "x", .pushConst (.list []),
   .pushConst (.bytecode [.getSym "x"]), .makeFunc]

/-- Bytecode of `(((lambda () (begin (def x 5) (lambda () x)))))` for the v1
machine: build the outer lambda, call it, then call the inner lambda it
returned.  Lexical scoping gives `5`. -/
def c1LexicalV1 : List V1.Inst :=
  [.pushConst (.list []), .pushConst (.bytecode c1OuterV1), .makeFunc,
   .callFunc 0, .callFunc 0]

/-- Bytecode demonstrating observability of `SetSym` mutations: define
`x := 0` and a lambda `f` reading `x` (capturing the root environment), then
call a second lambda whose body sets `x := 42` through the parent chain, and
finally invoke `f` — which sees `42`. -/
def c1MutationV1 : List V1.Inst :=
  [.pushConst (.int 0), .defSym "x", .popTop,
   .pushConst (.list []), .pushConst (.bytecode [.getSym "x"]), .makeFunc,
   .defSym "f", .popTop,
   .pushConst (.list []), .pushConst (.bytecode [.pushConst (.int 42), .setSym "x"]),
   .makeFunc, .callFunc 0, .popTop,
   .getSym "f", .callFunc 0]

/-- Body bytecode of the same outer lambda for the v2 machine. -/
def c1OuterV2 : List V2.Inst :=
  [.pushConst (.int 5), .storeSym "x", .pushConst (.list []),
   .pushConst (.bytecode [.loadSym "x"]), .makeFunc]

/-- Bytecode of `(((lambda () (begin (def x 5) (lambda () x)))))` for the v2
machine. -/
def c1CodeV2 : List V2.Inst :=
  [.pushConst (.list []), .pushConst (.bytecode c1OuterV2), .makeFunc,
   .callFunc 0, .callFunc 0]

/-- The accumulator program of claim C2 and `fiber_yielding_by_arg` in
`src/lyric/tests/embedding.rs`:
`(begin (def x 0) (defn f () (set x (+ x (yield x))) (f)) (f))`. -/
def c2prog : Lyric.Val :=
  .list [.sym "begin",
    .list [.sym "def", .sym "x", .int 0],
    .list [.sym "defn", .sym "f", .list [],
      .list [.sym "set", .sym "x",
        .list [.sym "+", .sym "x", .list [.sym "yield", .sym "x"]]],
      .list [.sym "f"]],
    .list [.sym "f"]]

/-- Single-instruction program used to complete a v2 fiber. -/
def c3Code : List V2.Inst := [.pushConst (.int 5)]

/-- The fiber produced by running `c3Code` to completion: root frame
exhausted, result popped, status `Completed(Ok(Int 5))`. -/
def c3FiberDone : V2.Fiber :=
  ⟨[⟨1, c3Code, 0⟩], [], [⟨[], none⟩], .completed (.ok (.int 5))⟩

/-- Two-parameter lambda returning its first parameter, for the v1 machine. -/
def c4LamV1 : V1.Val := .lambda ["a", "b"] [.getSym "a"] 0

/-- Call `c4LamV1` with arguments `"first"` and `"second"` pushed in
left-to-right evaluation order. -/
def c4CodeV1 : List V1.Inst :=
  [.pushConst c4LamV1, .pushConst (.str "first"), .pushConst (.str "second"), .callFunc 2]

/-- The same two-parameter lambda for the v2 machine. -/
def c4LamV2 : V2.Form := .lambda ["a", "b"] [.loadSym "a"]

/-- The same call for the v2 machine. -/
def c4CodeV2 : List V2.Inst :=
  [.pushConst c4LamV2, .pushConst (.str "first"), .pushConst (.str "second"), .callFunc 2]

/-- One-parameter identity lambda for the v1 machine. -/
def c5Lam : V1.Val := .lambda ["x"] [.getSym "x"] 0

/-- Call the one-parameter lambda with two arguments. -/
def c5TwoArgs : List V1.Inst :=
  [.pushConst c5Lam, .pushConst (.str "a"), .pushConst (.str "b"), .callFunc 2]

/-- Call the one-parameter lambda with zero arguments. -/
def c5ZeroArgs : List V1.Inst := [.pushConst c5Lam, .callFunc 0]

/-- Call the non-callable value `Int 3` with one argument. -/
def c6Code : List V1.Inst :=
  [.pushConst (.int 3), .pushConst (.int 4), .callFunc 1]

/-- Shorthand for `(quote v)`. -/
def quoteL (v : Lyric.Val) : Lyric.Val := .list [.sym "quote", v]

/-- Program `(peval '(+ 1 2))`. -/
def c7Arith : Lyric.Val :=
  .list [.sym "peval", quoteL (.list [.sym "+", .int 1, .int 2])]

/-- Program `(peval 'undefined_symbol)` — the caught-error scenario of
spec §8. -/
def c7Caught : Lyric.Val := .list [.sym "peval", quoteL (.sym "undefined_symbol")]

/-- Program `(peval '(yield 7))` — a nested yield propagating upward. -/
def c7Yield : Lyric.Val :=
  .list [.sym "peval", quoteL (.list [.sym "yield", .int 7])]

/-- Program `(peval '1 '2)` — wrong number of arguments. -/
def c7TwoArgs : Lyric.Val := .list [.sym "peval", quoteL (.int 1), quoteL (.int 2)]

/-- Program `(begin (peval '(def x 5)) x)` — the nested fiber shares the
caller environment, so its `def` is visible afterwards. -/
def c7Shared : Lyric.Val :=
  .list [.sym "begin",
    .list [.sym "peval", quoteL (.list [.sym "def", .sym "x", .int 5])],
    .sym "x"]

/-- Execute `PopJumpFwdIfTrue` on the v1 machine after pushing `true`. -/
def c9Code : List V1.Inst := [.pushConst (.bool true), .popJumpFwdIfTrue 1]

/-- Program whose root frame completes with an empty operand stack. -/
def c10EmptyStack : List V1.Inst := [.pushConst (.int 5), .popTop]

/-- Program whose root frame completes with two values on the stack. -/
def c10Extra : List V1.Inst := [.pushConst (.int 1), .pushConst (.int 2)]

namespace Types

mutual

theorem tryFrom_fromForm {T F I R : Type} :
    (f : Form) → tryFromVal (@fromForm T F I R f) = Except.ok f
  | .nil => by simp [fromForm, tryFromVal]
  | .bool b => by simp [fromForm, tryFromVal]
  | .int i => by simp [fromForm, tryFromVal]
  | .str s => by simp [fromForm, tryFromVal]
  | .sym s => by simp [fromForm, tryFromVal]
  | .kw k => by simp [fromForm, tryFromVal]
  | .list l => by
    rw [fromForm, tryFromVal, tryFrom_fromFormList l]

theorem tryFrom_fromFormList {T F I R : Type} :
    (l : List Form) → tryFromList (@fromFormList T F I R l) = Except.ok l
  | [] => by simp [fromFormList, tryFromList]
  | f :: rest => by
    rw [fromFormList, tryFromList, tryFrom_fromForm f, tryFrom_fromFormList rest]

end

end Types

namespace Types

mutual

theorem tryFrom_isOk_iff {T F I R : Type} :
    (v : Val T F I R) → (tryFromVal v).isOk = serializable v
  | .nil => by simp [tryFromVal, serializable, Except.isOk, Except.toBool]
  | .bool b => by simp [tryFromVal, serializable, Except.isOk, Except.toBool]
  | .int i => by simp [tryFromVal, serializable, Except.isOk, Except.toBool]
  | .str s => by simp [tryFromVal, serializable, Except.isOk, Except.toBool]
  | .sym s => by simp [tryFromVal, serializable, Except.isOk, Except.toBool]
  | .kw k => by simp [tryFromVal, serializable, Except.isOk, Except.toBool]
  | .list l => by
    rw [tryFromVal, serializable, ← tryFromList_isOk_iff l]
    cases @tryFromList T F I R l <;>
      simp [Except.isOk, Except.toBool]
  | .lambda p c e => by simp [tryFromVal, serializable, Except.isOk, Except.toBool]
  | .nativeFn s fn => by simp [tryFromVal, serializable, Except.isOk, Except.toBool]
  | .bytecode c => by simp [tryFromVal, serializable, Except.isOk, Except.toBool]
  | .errorV e => by simp [tryFromVal, serializable, Except.isOk, Except.toBool]
  | .ext t => by simp [tryFromVal, serializable, Except.isOk, Except.toBool]

theorem tryFromList_isOk_iff {T F I R : Type} :
    (l : List (Val T F I R)) → (tryFromList l).isOk = serializableList l
  | [] => by simp [tryFromList, serializableList, Except.isOk, Except.toBool]
  | v :: rest => by
    rw [tryFromList, serializableList, ← tryFrom_isOk_iff v, ← tryFromList_isOk_iff rest]
    cases tryFromVal v <;>
      cases @tryFromList T F I R rest <;>
        simp [Except.isOk, Except.toBool]

end

mutual

theorem tryFrom_error_kind {T F I R : Type} :
    (v : Val T F I R) → (e : SpecErrorG (Val T F I R)) → tryFromVal v = .error e →
      ∃ s, e = .invalidFormToExpr s
  | .nil, e => by simp [tryFromVal]
  | .bool b, e => by simp [tryFromVal]
  | .int i, e => by simp [tryFromVal]
  | .str s, e => by simp [tryFromVal]
  | .sym s, e => by simp [tryFromVal]
  | .kw k, e => by simp [tryFromVal]
  | .list l, e => by
    rw [tryFromVal]
    intro h
    match hl : @tryFromList T F I R l with
    | .error e2 =>
      rw [hl] at h
      cases h
      exact tryFromList_error_kind l e hl
    | .ok fs =>
      rw [hl] at h
      cases h
  | .lambda p c en, e => by
    intro h
    rw [tryFromVal] at h
    exact ⟨"lambdas are not exprs", (Except.error.inj h).symm⟩
  | .nativeFn s fn, e => by
    intro h
    rw [tryFromVal] at h
    exact ⟨"nativefns are not exprs", (Except.error.inj h).symm⟩
  | .bytecode c, e => by
    intro h
    rw [tryFromVal] at h
    exact ⟨"bytecode are not exprs", (Except.error.inj h).symm⟩
  | .errorV e0, e => by
    intro h
    rw [tryFromVal] at h
    exact ⟨"errors are not exprs", (Except.error.inj h).symm⟩
  | .ext t, e => by
    intro h
    rw [tryFromVal] at h
    exact ⟨"extern values are not exprs", (Except.error.inj h).symm⟩

theorem tryFromList_error_kind {T F I R : Type} :
    (l : List (Val T F I R)) → (e : SpecErrorG (Val T F I R)) → tryFromList l = .error e →
      ∃ s, e = .invalidFormToExpr s
  | [], e => by simp [tryFromList]
  | v :: rest, e => by
    rw [tryFromList]
    intro h
    match hv : tryFromVal v with
    | .error e2 =>
      rw [hv] at h
      cases h
      exact tryFrom_error_kind v e hv
    | .ok f =>
      rw [hv] at h
      match hr : @tryFromList T F I R rest with
      | .error e2 =>
        rw [hr] at h
        cases h
        exact tryFromList_error_kind rest e hr
      | .ok fs =>
        rw [hr] at h
        cases h

end

end Types

/-- C1: the claim states that a `CallFunc` dispatch to a `Lambda` runs the
body in a fresh child of the lambda's captured environment (lexical
scoping), with `SetSym` mutations of that environment observable at the next
invocation.  `fiber.rs` implements this: the nested-closure program
`(((lambda () (begin (def x 5) (lambda () x)))))` returns `5` (first
conjunct) and a `SetSym` performed from another call frame is seen by a
previously created closure (second conjunct).  The v2 fiber however builds
the callee frame over the CURRENT frame's environment (`Env::extend(&f.top().env)`,
marked `TODO: should use parent scope!` in the source) and its lambdas
capture no environment, so the same program fails with
`UndefinedSymbol("x")` (third conjunct) instead of returning `5`. -/
theorem claim_C1 :
    V1.run 128 (V1.fromBytecode c1LexicalV1) = .done (.int 5) ∧
    V1.run 128 (V1.fromBytecode c1MutationV1) = .done (.int 42) ∧
    V2.startStatus (V2.start 128 (V2.fromBytecode c1CodeV2)) =
      some (.error (.undefinedSymbol "x")) :=
  ⟨rfl, rfl, rfl⟩

/-- C2: one value is exchanged per suspension in each direction.  On a fresh
fiber `resume()` coincides with `resume_from_yield(Nil)` (first conjunct),
and the accumulator program
`(begin (def x 0) (defn f () (set x (+ x (yield x))) (f)) (f))`, resumed
with `Int 1,2,3,4,5`, produces exactly
`Yield(0), Yield(1), Yield(3), Yield(6), Yield(10), Yield(15)` (second
conjunct), matching `fiber_yielding_by_arg` in
`src/lyric/tests/embedding.rs`. -/
theorem claim_C2 :
    (∀ (code : List Lyric.Inst) (fuel : Nat),
      Lyric.resume fuel (Lyric.fromBytecode code) =
        Lyric.resumeFromYield fuel .nil (Lyric.fromBytecode code)) ∧
    Lyric.traceFromVal 2000 c2prog [.int 1, .int 2, .int 3, .int 4, .int 5] =
      .ok [.yield (.int 0), .yield (.int 1), .yield (.int 3), .yield (.int 6),
           .yield (.int 10), .yield (.int 15)] :=
  ⟨fun _ _ => rfl, rfl⟩

/-- C3 counterexample: the claim states that resuming a completed fiber
fails with `AlreadyCompleted`, but the v2 `FiberError` enum has no such
variant — running `[PushConst(Int 5)]` to completion and calling `start`
again fails with `AlreadyRunning`. -/
theorem claim_C3_counterexample :
    V2.start 64 (V2.fromBytecode c3Code) = .ran (.fin c3FiberDone) ∧
    c3FiberDone.status = .completed (.ok (.int 5)) ∧
    V2.start 64 c3FiberDone = .fail .alreadyRunning :=
  ⟨rfl, rfl, rfl⟩

/-- C3 amended: `Done` is terminal and `Running` is rejected, but both with
the SAME error — v2's `start` fails with `AlreadyRunning` for every fiber
whose status is not `New` (whether `Running`, `Yielded` or `Completed`);
no `AlreadyCompleted` error exists in the code. -/
theorem claim_C3_amended (fuel : Nat) (f : V2.Fiber) (h : f.status ≠ .new) :
    V2.start fuel f = .fail .alreadyRunning := by
  cases hs : f.status with
  | new => exact absurd hs h
  | running => simp [V2.start, hs]
  | yielded => simp [V2.start, hs]
  | completed r => simp [V2.start, hs]

/-- C3 witness: the amended theorem applied to the concrete completed
fiber. -/
theorem claim_C3_witness :
    V2.start 7 c3FiberDone = .fail .alreadyRunning :=
  claim_C3_amended 7 c3FiberDone (fun h => nomatch h)

/-- C4: the claim states that `CallFunc(n)` binds the i-th parameter to the
i-th argument in both fibers.  `fiber.rs` does (`args.into_iter().rev()`
restores left-to-right order): the first conjunct binds `a := "first"`.
The v2 fiber collects the arguments through `(0..nargs).map(|_| pop()).rev()`,
and since `rev` only reverses the ignored range indices while each closure
call pops the stack, the collected vector stays in pop order — the same call
binds `a := "second"` (second conjunct). -/
theorem claim_C4 :
    V1.run 64 (V1.fromBytecode c4CodeV1) = .done (.str "first") ∧
    V2.startStatus (V2.start 64 (V2.fromBytecode c4CodeV2)) =
      some (.ok (.str "second")) :=
  ⟨rfl, rfl⟩

/-- C5: the claim states that an arity mismatch on a `Lambda` call fails
with `InvalidArgumentsToFunctionCall`.  The `CallFunc` arm of `fiber.rs`
performs no arity check — `params.iter().zip(args)` silently truncates:
calling a 1-parameter lambda with two arguments completes normally with the
first argument (first conjunct), and calling it with zero arguments leaves
the parameter unbound so the body fails with `UndefinedSymbol("x")` (second
conjunct); `InvalidArgumentsToFunctionCall` is declared in
`src/lemma/src/error.rs` but never raised. -/
theorem claim_C5 :
    V1.run 64 (V1.fromBytecode c5TwoArgs) = .done (.str "a") ∧
    V1.run 64 (V1.fromBytecode c5ZeroArgs) = .err (.undefinedSymbol "x") :=
  ⟨rfl, rfl⟩

/-- C6 counterexample: the claim states that calling a non-callable fails
with `InvalidOperation`; calling `Int 3` actually fails with
`UnexpectedStack("Missing function object")`, and no `InvalidOperation`
error is produced. -/
theorem claim_C6_counterexample :
    V1.run 64 (V1.fromBytecode c6Code) =
      .err (.unexpectedStack "Missing function object") ∧
    ¬ ∃ v, V1.run 64 (V1.fromBytecode c6Code) = .err (.invalidOperation v) :=
  ⟨rfl, fun ⟨_, h⟩ => nomatch h⟩

/-- C6 amended: executing `CallFunc` when the popped callee is neither a
`Lambda` nor a `NativeFn` fails with
`UnexpectedStack("Missing function object")` (the fall-through arm of the
`CallFunc` dispatch in `fiber.rs`), not `InvalidOperation`. -/
theorem claim_C6_amended (v : V1.Val) (h : V1.isCallable v = false) :
    V1.run 64 (V1.fromBytecode [.pushConst v, .pushConst (.int 4), .callFunc 1]) =
      .err (.unexpectedStack "Missing function object") := by
  cases v with
  | lambda p c e => exact absurd h (by simp [V1.isCallable])
  | nativeFn n => exact absurd h (by simp [V1.isCallable])
  | nil => rfl
  | bool b => rfl
  | int i => rfl
  | str s => rfl
  | sym s => rfl
  | kw k => rfl
  | list l => rfl
  | bytecode c => rfl
  | errorV e => rfl

/-- C6 witness: the amended theorem applied to the non-callable `Int 3`. -/
theorem claim_C6_witness :
    V1.run 64 (V1.fromBytecode [.pushConst (.int 3), .pushConst (.int 4), .callFunc 1]) =
      .err (.unexpectedStack "Missing function object") :=
  claim_C6_amended (.int 3) rfl

/-- C7: `peval` with exactly one argument runs it in a nested fiber sharing
the caller's environment; it returns the nested result on completion
(`(peval '(+ 1 2))` is `Done(3)`), propagates a nested yield as its own
(`(peval '(yield 7))` is `Yield(7)`), and surfaces a nested error as the
first-class value `Val::Error(e)` instead of killing the caller
(`(peval 'undefined_symbol)` is `Done(Error(UndefinedSymbol))`); environment
sharing makes a nested `(def x 5)` visible to the caller; and any other
number of arguments fails with `Err(InvalidExpression)` — both end-to-end
(last trace conjunct) and for the native itself on every argument list of
length other than one (first conjunct). -/
theorem claim_C7 :
    (∀ (fuel envId : Nat) (heap : List (EnvFrameG Lyric.Val)) (globalId : Nat)
      (args : List Lyric.Val), args.length ≠ 1 →
      Lyric.pevalNative fuel envId heap globalId args =
        .failP (.invalidExpression "peval expects one argument")) ∧
    Lyric.traceFromVal 2000 c7Arith [] = .ok [.done (.int 3)] ∧
    Lyric.traceFromVal 2000 c7Caught [] =
      .ok [.done (.errorV (.undefinedSymbol "undefined_symbol"))] ∧
    Lyric.traceFromVal 2000 c7Yield [] = .ok [.yield (.int 7)] ∧
    Lyric.traceFromVal 2000 c7Shared [] = .ok [.done (.int 5)] ∧
    Lyric.traceFromVal 2000 c7TwoArgs [] =
      .ok [.err (.invalidExpression "peval expects one argument")] := by
  refine ⟨?_, rfl, rfl, rfl, rfl, rfl⟩
  intro fuel envId heap globalId args h
  match args with
  | [] => rfl
  | [v] => exact absurd rfl h
  | a :: b :: rest => rfl

/-- C7 witness: the arity conjunct applied to the empty argument list. -/
theorem claim_C7_witness :
    ([] : List Lyric.Val).length ≠ 1 ∧
    Lyric.pevalNative 10 0 [] 0 [] =
      .failP (.invalidExpression "peval expects one argument") :=
  ⟨by decide, claim_C7.1 10 0 [] 0 [] (by decide)⟩

/-- C8: `Form → Val` is total and lossless — the round trip
`Form → Val → Form` is the identity (first conjunct); `Val → Form` succeeds
exactly on the serializable values, where a list is serializable exactly
when all its elements are (second conjunct); and every failure of
`Val → Form` is an `InvalidFormToExpr` (third conjunct). -/
theorem claim_C8 :
    (∀ (T F I R : Type) (f : Types.Form),
      Types.tryFromVal (@Types.fromForm T F I R f) = .ok f) ∧
    (∀ (T F I R : Type) (v : Types.Val T F I R),
      (Types.tryFromVal v).isOk = Types.serializable v) ∧
    (∀ (T F I R : Type) (v : Types.Val T F I R) (e : SpecErrorG (Types.Val T F I R)),
      Types.tryFromVal v = .error e → ∃ s, e = .invalidFormToExpr s) :=
  ⟨fun _ _ _ _ f => Types.tryFrom_fromForm f,
   fun _ _ _ _ v => Types.tryFrom_isOk_iff v,
   fun _ _ _ _ v e h => Types.tryFrom_error_kind v e h⟩

/-- C8 witness: the round trip on a concrete list, the success/failure
criterion on a lambda, and the error kind of converting an extern value. -/
theorem claim_C8_witness :
    Types.tryFromVal (@Types.fromForm Unit Unit Unit Unit (.list [.int 3, .nil])) =
      .ok (.list [.int 3, .nil]) ∧
    (Types.tryFromVal (.lambda [] [] () : Types.Val Unit Unit Unit Unit)).isOk =
      Types.serializable (.lambda [] [] () : Types.Val Unit Unit Unit Unit) ∧
    ∃ s, (.invalidFormToExpr "extern values are not exprs" :
      SpecErrorG (Types.Val Unit Unit Unit Unit)) = .invalidFormToExpr s :=
  ⟨claim_C8.1 Unit Unit Unit Unit (.list [.int 3, .nil]),
   claim_C8.2.1 Unit Unit Unit Unit (.lambda [] [] ()),
   claim_C8.2.2 Unit Unit Unit Unit (.ext ()) (.invalidFormToExpr "extern values are not exprs")
     (by simp [Types.tryFromVal])⟩

/-- C9: the claim describes `PopJumpFwdIfTrue(k)` as pop-and-conditionally
jump; in `src/lemma/src/fiber.rs` the opcode is `todo!()` (as §9 of the spec
itself records), so executing it panics instead. -/
theorem claim_C9 :
    V1.run 64 (V1.fromBytecode c9Code) = .panicked "not yet implemented" :=
  rfl

/-- C10 counterexample: the claim states that a fiber built from empty
bytecode always fails with `UnexpectedStack`; in `fiber.rs` the instruction
fetch precedes the completion check, so the empty program fails with
`NoMoreBytecode` and no `UnexpectedStack` error is produced. -/
theorem claim_C10_counterexample :
    V1.run 64 (V1.fromBytecode []) = .err .noMoreBytecode ∧
    ¬ ∃ s, V1.run 64 (V1.fromBytecode []) = .err (.unexpectedStack s) :=
  ⟨rfl, fun ⟨_, h⟩ => nomatch h⟩

/-- C10 amended: when the root frame completes while the operand stack is
empty, `resume` fails with `UnexpectedStack` (first conjunct); extra values
beyond the result only warn and the top value is still returned (second
conjunct); but a fiber from empty bytecode fails with `NoMoreBytecode`,
because the fetch happens before the done-frame check (third conjunct). -/
theorem claim_C10_amended :
    V1.run 64 (V1.fromBytecode c10EmptyStack) =
      .err (.unexpectedStack "Stack should contain result for terminated fiber") ∧
    V1.run 64 (V1.fromBytecode c10Extra) = .done (.int 2) ∧
    V1.run 64 (V1.fromBytecode []) = .err .noMoreBytecode :=
  ⟨rfl, rfl, rfl⟩
